import Mathlib

/-!
Verification development for the identity-resolution and longitudinal
confidence-adjustment engine of `src/core/face_handler_v2.py`
(class `FaceHandlerV2`).

Modelling conventions (shallow embedding):

* Python `float` values are modelled as exact rationals (`ℚ`).  All numeric
  literals of the source (`0.3`, `0.15`, `30 * 24 * 3600`, ...) are kept as
  the corresponding rationals.  For the comparisons actually performed by the
  source on realisable values (rates `k/n` with `n ≤ 10`, sums of the rule
  constants) the exact-rational and IEEE-double verdicts coincide.
* Python dicts keyed by strings (`known_faces`, `analysis_history`) are
  modelled as insertion-ordered association lists, matching dict iteration
  order and in-place assignment semantics (`alGet`, `alInsert`, `alAdjust`).
* `datetime.now().isoformat()` produces a string; epoch values from
  `time.time()` are numbers.  The sum type `PyTime` models a timestamp value
  of either dynamic type.  Comparing a `str` with a `float` (as the 30-day
  window filter of `adjust_confidence_with_history` does on entries written
  by `add_analysis_result`) raises `TypeError` in Python 3; this is modelled
  as `Except.error`, and the broad `except:` of the source catches it.
* Euclidean distances (`np.linalg.norm(a - b)`) are compared squared:
  `dist2` returns the squared distance and all thresholds are squared
  (`matchThresholdSq = (1 - similarity_threshold)^2`); squaring is strictly
  monotone on nonnegatives so every comparison of the source is preserved.
  A length mismatch between descriptors raises in numpy and is modelled as
  `Except.error` (singleton-shape broadcasting is not modelled).
* Human-readable reasoning strings are kept, except that Python `%`/f-string
  numeric interpolation inside them is abstracted away (no claim inspects
  the interpolated numbers).
-/

/-- Decimal digit character, `chr(48 + d)`. -/
def digitChar (d : Nat) : Char := Char.ofNat (48 + d)

/-- Decimal digits of `n`, most significant first; structured by fuel so the
kernel can evaluate it. -/
def natDigitsAux : Nat → Nat → List Char
  | 0, _ => []
  | fuel + 1, n =>
    if n < 10 then [digitChar n]
    else natDigitsAux fuel (n / 10) ++ [digitChar (n % 10)]

/-- Decimal representation of a natural number, as Python `str(n)`. -/
def natDigits (n : Nat) : List Char := natDigitsAux (n + 1) n

/-- Zero-padding to width 4, as Python `f"{n:04d}"` (numbers with more than
four digits are printed in full). -/
def pad4 (l : List Char) : List Char := List.replicate (4 - l.length) '0' ++ l

/-- Identity id `f"child_{n:04d}"` allocated by `_find_or_create_face`. -/
def childId (n : Nat) : String := "child_" ++ String.mk (pad4 (natDigits n))

/-- Fallback id `f"fallback_{int(time.time())}"` returned when matching
raises. -/
def fallbackId (t : Nat) : String := "fallback_" ++ String.mk (natDigits t)

section AssocList

variable {α : Type*}

/-- Dict lookup `d.get(k)` / `k in d` on an insertion-ordered assoc list. -/
def alGet (k : String) : List (String × α) → Option α
  | [] => none
  | p :: rest => if p.1 = k then some p.2 else alGet k rest

/-- Dict assignment `d[k] = v`: updates in place if the key exists, appends
otherwise (Python dicts preserve insertion position on overwrite). -/
def alInsert (k : String) (v : α) : List (String × α) → List (String × α)
  | [] => [(k, v)]
  | p :: rest => if p.1 = k then (k, v) :: rest else p :: alInsert k v rest

/-- In-place mutation of the value stored at key `k` (e.g.
`d[k]['seen_count'] += 1`). -/
def alAdjust (k : String) (f : α → α) (l : List (String × α)) :
    List (String × α) :=
  l.map fun p => if p.1 = k then (p.1, f p.2) else p

end AssocList

/-- A timestamp value as stored in a history-entry dict: either the ISO
string written by `datetime.now().isoformat()` or a numeric epoch value. -/
inductive PyTime
  | iso (s : String)
  | num (t : ℚ)
deriving DecidableEq, Repr

/-- The `analysis_summary` sub-dict of a history entry, as written by
`add_analysis_result` (always carries all three keys). -/
structure AnalysisSummary where
  regions_analyzed : Nat
  positive_detections : Nat
  method : String
deriving DecidableEq, Repr

/-- One entry of `self.analysis_history[face_id]`. -/
structure HistoryEntry where
  timestamp : Option PyTime
  image_path : String
  has_positive_findings : Bool
  analysis_summary : AnalysisSummary
deriving DecidableEq, Repr

/-- The `patient_history_summary` dict attached to an adjusted finding. -/
structure PatientHistorySummary where
  positive_rate : ℚ
  recent_analyses_count : Nat
  avg_historical_confidence : ℚ
deriving DecidableEq, Repr

/-- One per-region analysis result dict (a Finding).  Keys that are absent
before adjustment are modelled as fields with the default that the source's
`.get(..., default)` accesses produce. -/
structure Finding where
  leukocoria_detected : Bool
  confidence : ℚ
  risk_level : String
  urgency : String
  medical_reasoning : String := ""
  confidence_adjusted : Bool := false
  original_confidence : Option ℚ := none
  adjustment_factor : ℚ := 0
  adjustment_reasoning : List String := []
  patient_history_summary : Option PatientHistorySummary := none
  detection_changed_by_history : Bool := false
  recommendation_note : Option String := none
  recommendations : Option String := none
deriving DecidableEq, Repr

/-- The per-identity record stored in `self.known_faces`. -/
structure FaceData where
  encoding : List ℚ
  first_seen : String
  last_seen : String
  seen_count : Nat
  region_types : List String
  detection_source : String
deriving DecidableEq, Repr

/-- The `region` dict passed to `_find_or_create_face` (only `type` and
`source` are read, each with default `'unknown'`). -/
structure Region where
  rtype : Option String
  source : Option String
deriving DecidableEq, Repr

/-- The mutable state of a `FaceHandlerV2` instance relevant to the claims. -/
structure FHState where
  known_faces : List (String × FaceData)
  analysis_history : List (String × List HistoryEntry)
  next_face_id : Nat
deriving DecidableEq, Repr

/-- The state built by `__init__` before loading persisted data. -/
def initState : FHState := ⟨[], [], 1⟩

/-- `self.config['similarity_threshold']`. -/
def similarity_threshold : ℚ := 3 / 5

/-- `self.config['max_history_per_face']`. -/
def max_history_per_face : Nat := 10

/-- Squared acceptance threshold: the source accepts a match when the
Euclidean distance is `< 1 - similarity_threshold`; on squared distances
this is `< (1 - similarity_threshold)^2 = 4/25`. -/
def matchThresholdSq : ℚ := (1 - similarity_threshold) ^ 2

/-- Squared Euclidean distance `np.linalg.norm(a - b)**2`; a shape mismatch
raises in numpy (modelled for unequal lengths). -/
def dist2 (a b : List ℚ) : Except Unit ℚ :=
  if a.length = b.length then
    .ok (((a.zip b).map fun p => (p.1 - p.2) ^ 2).sum)
  else .error ()

/-- One iteration of the nearest-neighbour loop of `_find_or_create_face`:
keeps the strictly closer candidate (first seen wins ties); `none` is the
initial `best_distance = inf` state. -/
def scanStep (enc : List ℚ) (acc : Option (String × ℚ)) (p : String × FaceData) :
    Except Unit (Option (String × ℚ)) :=
  match dist2 enc p.2.encoding with
  | .error e => .error e
  | .ok d =>
    match acc with
    | none => .ok (some (p.1, d))
    | some (bid, bd) => .ok (some (if d < bd then (p.1, d) else (bid, bd)))

/-- The full nearest-neighbour scan over `self.known_faces.items()`. -/
def scanBest (enc : List ℚ) (faces : List (String × FaceData)) :
    Except Unit (Option (String × ℚ)) :=
  faces.foldlM (scanStep enc) none

/-- The mutation applied to a matched identity record:
`last_seen = now().isoformat()` and `seen_count += 1`. -/
def touchFace (nowIso : String) (fd : FaceData) : FaceData :=
  { fd with last_seen := nowIso, seen_count := fd.seen_count + 1 }

/-- The new-identity branch of `_find_or_create_face`. -/
def createFace (s : FHState) (enc : List ℚ) (region : Region) (nowIso : String) :
    (String × Bool) × FHState :=
  let fid := childId s.next_face_id
  ((fid, true),
   { known_faces := alInsert fid
       { encoding := enc, first_seen := nowIso, last_seen := nowIso,
         seen_count := 1, region_types := [region.rtype.getD "unknown"],
         detection_source := region.source.getD "unknown" } s.known_faces,
     analysis_history := alInsert fid [] s.analysis_history,
     next_face_id := s.next_face_id + 1 })

/-- `_find_or_create_face`.  `nowIso` models `datetime.now().isoformat()`,
`nowEpoch` models `int(time.time())`.  The source's truthiness test
`best_match_id and ...` is equivalent to the `Option` match because stored
ids are never empty strings. -/
def find_or_create_face (s : FHState) (enc : List ℚ) (region : Region)
    (nowIso : String) (nowEpoch : Nat) : (String × Bool) × FHState :=
  match scanBest enc s.known_faces with
  | .error _ => ((fallbackId nowEpoch, true), s)
  | .ok best =>
    match best with
    | some (bid, bd) =>
      if bd < matchThresholdSq then
        ((bid, false),
         { s with known_faces := alAdjust bid (touchFace nowIso) s.known_faces })
      else createFace s enc region nowIso
    | none => createFace s enc region nowIso

/-- The `analysis_results` dict consumed by `add_analysis_result` and (its
`results` list) by `adjust_confidence_with_history`. -/
structure AnalysisResults where
  results : List Finding
  regions_analyzed : Nat
  method : String
deriving DecidableEq, Repr

/-- The history entry built by `add_analysis_result` (note the timestamp is
the ISO **string** `datetime.now().isoformat()`). -/
def mkHistoryEntry (nowIso : String) (imagePath : String) (ar : AnalysisResults) :
    HistoryEntry :=
  { timestamp := some (.iso nowIso),
    image_path := imagePath,
    has_positive_findings := ar.results.any (·.leukocoria_detected),
    analysis_summary :=
      { regions_analyzed := ar.regions_analyzed,
        positive_detections := (ar.results.filter (·.leukocoria_detected)).length,
        method := ar.method } }

/-- Append then truncate to the last `max_history_per_face` entries
(`history[-max_history:]`). -/
def appendEntry (h : List HistoryEntry) (e : HistoryEntry) : List HistoryEntry :=
  let l := h ++ [e]
  if l.length > max_history_per_face then l.drop (l.length - max_history_per_face)
  else l

/-- `add_analysis_result` (the in-memory effect; persistence is separate). -/
def add_analysis_result (s : FHState) (fid : String) (ar : AnalysisResults)
    (imagePath nowIso : String) : FHState :=
  let h := (alGet fid s.analysis_history).getD []
  let h2 := alInsert fid (appendEntry h (mkHistoryEntry nowIso imagePath ar))
    s.analysis_history
  { s with analysis_history := h2 }

/-- The comparison `entry.get('timestamp', 0) > recent_cutoff`.  With an ISO
string this is `str > float`, a `TypeError` in Python 3. -/
def tsGt (t : Option PyTime) (cutoff : ℚ) : Except Unit Bool :=
  match t.getD (PyTime.num 0) with
  | .iso _ => .error ()
  | .num x => .ok (decide (x > cutoff))

/-- The 30-day window list comprehension; the first raising comparison aborts
the whole comprehension. -/
def recentFilter (h : List HistoryEntry) (cutoff : ℚ) :
    Except Unit (List HistoryEntry) :=
  match h with
  | [] => .ok []
  | e :: es =>
    match tsGt e.timestamp cutoff with
    | .error u => .error u
    | .ok b =>
      match recentFilter es cutoff with
      | .error u => .error u
      | .ok rest => .ok (if b then e :: rest else rest)

/-- `_reevaluate_risk_level_with_history`.  Reads `confidence`,
`leukocoria_detected`, `confidence_adjusted` and `adjustment_factor` from the
result dict; its `try` body cannot raise. -/
def reevaluate_risk_level_with_history (result : Finding) : Finding :=
  let confidence := result.confidence
  let detected := result.leukocoria_detected
  let has_history_adjustment := result.confidence_adjusted
  let adjustment_factor := result.adjustment_factor
  let r1 :=
    if detected then
      if confidence ≥ 85 ∨ (confidence ≥ 75 ∧ has_history_adjustment) then
        { result with
          risk_level := "high"
          urgency := "immediate"
          medical_reasoning := result.medical_reasoning ++
            " High confidence with patient history support." }
      else if confidence ≥ 65 ∨ (confidence ≥ 55 ∧ has_history_adjustment) then
        { result with
          risk_level := "medium"
          urgency := "urgent"
          medical_reasoning := result.medical_reasoning ++
            " Moderate confidence enhanced by patient history." }
      else if confidence ≥ 45 then
        { result with risk_level := "medium", urgency := "soon" }
      else
        { result with risk_level := "low", urgency := "routine" }
    else
      if has_history_adjustment ∧ confidence > 30 then
        { result with
          risk_level := "low"
          urgency := "soon"
          recommendation_note :=
            some "Continue close monitoring due to patient history" }
      else if has_history_adjustment ∧ adjustment_factor > 1 / 10 then
        { result with
          urgency := "soon"
          recommendation_note :=
            some "Enhanced monitoring recommended based on patient history" }
      else result
  if has_history_adjustment then
    let note := "Confidence adjusted based on patient history. " ++
      (r1.recommendations.getD "Continue medical monitoring as advised.")
    { r1 with recommendations := some note }
  else r1

/-- Rules 1-5 of `adjust_confidence_with_history`: the accumulated
`adjustment_factor` and the ordered `reasoning` trail for one result. -/
def computeFactor (recent : List HistoryEntry) (positive_rate avg : ℚ)
    (result : Finding) : ℚ × List String :=
  let oc := result.confidence
  let od := result.leukocoria_detected
  let p1 :=
    if positive_rate > 3 / 10 ∧ od then
      ((15 : ℚ) / 100, ["Consistent with positive history"])
    else if positive_rate < 2 / 10 ∧ od ∧ oc > 60 then
      ((1 : ℚ) / 10, ["New concerning finding - monitor closely"])
    else if positive_rate > 1 / 2 ∧ ¬od then
      if oc < 40 then
        ((2 : ℚ) / 10,
         ["Low confidence with positive history - possible false negative"])
      else
        ((5 : ℚ) / 100, ["No detection but positive history warrants caution"])
    else ((0 : ℚ), [])
  let p2 :=
    if |oc - avg| > 30 then
      if oc > avg then
        ((5 : ℚ) / 100, ["Higher confidence than historical average"])
      else (-(5 : ℚ) / 100, ["Lower confidence than historical average"])
    else ((0 : ℚ), [])
  let p3 :=
    if recent.length ≥ 3 then
      let lastThree := recent.drop (recent.length - 3)
      let trend :=
        (lastThree.filter fun e =>
          decide (e.analysis_summary.positive_detections > 0)).length
      if trend ≥ 2 ∧ od then
        ((1 : ℚ) / 10, ["Consistent with recent positive trend"])
      else if trend ≥ 2 ∧ ¬od then
        ((15 : ℚ) / 100,
         ["Inconsistent with recent positive trend - increase sensitivity"])
      else ((0 : ℚ), [])
    else ((0 : ℚ), [])
  (p1.1 + p2.1 + p3.1, p1.2 ++ p2.2 ++ p3.2)

/-- The application step of `adjust_confidence_with_history` for one result:
clamp, bookkeeping fields, conditional risk reevaluation, conditional
detection flip.  The flip's note lands in `adjustment_reasoning` because the
source mutates the aliased `reasoning` list after storing it. -/
def applyAdjustment (recentLen : Nat) (positive_rate avg : ℚ)
    (factor : ℚ) (reasoning : List String) (result : Finding) : Finding :=
  if factor = 0 then result
  else
    let newConf := max 0 (min 100 (result.confidence * (1 + factor)))
    let r1 :=
      { result with
        confidence := newConf
        confidence_adjusted := true
        original_confidence := some result.confidence
        adjustment_factor := factor
        adjustment_reasoning := reasoning
        patient_history_summary := some ⟨positive_rate, recentLen, avg⟩ }
    let r2 :=
      if |newConf - result.confidence| > 10 then
        reevaluate_risk_level_with_history r1
      else r1
    if ¬result.leukocoria_detected ∧ newConf > 50 ∧ factor > 1 / 10 then
      { r2 with
        leukocoria_detected := true
        detection_changed_by_history := true
        adjustment_reasoning := r2.adjustment_reasoning ++
          ["Detection status changed based on patient history"] }
    else r2

/-- `adjust_confidence_with_history`.  `nowT` models `time.time()` (epoch
seconds).  The broad `except` returning the input list is reached exactly
when the window comparison raises (`recentFilter` errors). -/
def adjust_confidence_with_history (s : FHState) (nowT : ℚ) (fid : String)
    (results : List Finding) : List Finding :=
  match alGet fid s.analysis_history with
  | none => results
  | some history =>
    if history.length < 2 then results
    else
      match recentFilter history (nowT - 30 * 24 * 3600) with
      | .error _ => results
      | .ok recent =>
        if recent.isEmpty then results
        else
          let positives :=
            recent.map fun e => decide (e.analysis_summary.positive_detections > 0)
          let confidences := recent.filterMap fun e =>
            if e.analysis_summary.regions_analyzed > 0 then
              some (if e.analysis_summary.positive_detections > 0 then (50 : ℚ)
                    else 20)
            else none
          if positives.isEmpty then results
          else
            let positive_rate : ℚ :=
              (positives.count true : ℚ) / (positives.length : ℚ)
            let avg : ℚ :=
              if confidences.isEmpty then 50
              else confidences.sum / (confidences.length : ℚ)
            results.map fun r =>
              let fr := computeFactor recent positive_rate avg r
              applyAdjustment recent.length positive_rate avg fr.1 fr.2 r

/-- Return value of `get_face_analysis_summary`: the error dict, the
no-history dict, or the full summary dict. -/
inductive SummaryOut
  | err (msg : String)
  | empty (face_id : String) (first_seen last_seen : Option String)
  | full (face_id : String) (total_analyses positive_analyses : Nat)
      (consistency_rate : ℚ) (first_seen last_seen : Option String)
      (seen_count : Nat) (recommendation urgency : String)
      (recent_analyses : List HistoryEntry)
deriving DecidableEq, Repr

/-- `get_face_analysis_summary`. -/
def get_face_analysis_summary (s : FHState) (fid : String) : SummaryOut :=
  match alGet fid s.analysis_history with
  | none => .err "Face not found"
  | some history =>
    let fd := alGet fid s.known_faces
    if history.isEmpty then
      .empty fid (fd.map (·.first_seen)) (fd.map (·.last_seen))
    else
      let total := history.length
      let positive := (history.filter (·.has_positive_findings)).length
      let consistency : ℚ := (positive : ℚ) / (total : ℚ) * 100
      let ru :=
        if positive ≥ 2 then
          ("URGENT: Multiple positive findings - immediate medical consultation required",
           "immediate")
        else if positive = 1 ∧ total ≥ 2 then
          ("MONITOR: One positive finding - follow-up recommended", "soon")
        else if consistency > 50 then
          ("EVALUATE: Concerning pattern - medical evaluation advised", "urgent")
        else ("CONTINUE: Regular monitoring - no immediate concerns", "routine")
      .full fid total positive consistency (fd.map (·.first_seen))
        (fd.map (·.last_seen)) ((fd.map (·.seen_count)).getD 0) ru.1 ru.2
        (if history.length > 3 then history.drop (history.length - 3) else history)

/-- Outcome of reading one persisted file: absent, unparsable, or parsed. -/
inductive FileRead (α : Type)
  | absent
  | corrupt
  | ok (a : α)
deriving DecidableEq, Repr

/-- Contents of the `known_faces.pkl` pickle: `data.get('known_faces', {})`
and `data.get('next_face_id', 1)`. -/
structure FacesBlob where
  known_faces : Option (List (String × FaceData))
  next_face_id : Option Nat
deriving DecidableEq, Repr

/-- `_load_data`: the single `try` covers both file loads; any failure runs
the `except` body, which resets `known_faces`, `analysis_history` and
`next_face_id` together. -/
def load_data (faces : FileRead FacesBlob)
    (hist : FileRead (List (String × List HistoryEntry))) (s : FHState) :
    FHState :=
  match faces with
  | .corrupt => ⟨[], [], 1⟩
  | .absent =>
    match hist with
    | .corrupt => ⟨[], [], 1⟩
    | .absent => s
    | .ok h => { s with analysis_history := h }
  | .ok blob =>
    let s1 :=
      { s with
        known_faces := blob.known_faces.getD []
        next_face_id := blob.next_face_id.getD 1 }
    match hist with
    | .corrupt => ⟨[], [], 1⟩
    | .absent => s1
    | .ok h => { s1 with analysis_history := h }

/-- One in-memory mutating operation of the engine. -/
inductive Op
  | resolve (enc : List ℚ) (region : Region) (nowIso : String) (nowEpoch : Nat)
  | record (fid : String) (ar : AnalysisResults) (imagePath nowIso : String)

/-- State effect of one operation. -/
def step (s : FHState) : Op → FHState
  | .resolve enc region nowIso nowEpoch =>
    (find_or_create_face s enc region nowIso nowEpoch).2
  | .record fid ar imagePath nowIso =>
    add_analysis_result s fid ar imagePath nowIso

/-- Well-formedness of the identity store: every key was allocated by the
`child_{n:04d}` counter below its current value. -/
def WF (s : FHState) : Prop :=
  ∀ p ∈ s.known_faces, ∃ k, p.1 = childId k ∧ k < s.next_face_id

/-! ### Concrete fixtures used by witnesses and counterexamples -/

/-- A positive analysis summary (one region analysed, one detection). -/
def summaryPos : AnalysisSummary := ⟨1, 1, "gemma"⟩

/-- A negative analysis summary. -/
def summaryNeg : AnalysisSummary := ⟨1, 0, "gemma"⟩

/-- Positive history entry with ISO-string timestamp (as `add_analysis_result`
writes). -/
def entryIsoPos (ts : String) : HistoryEntry := ⟨some (.iso ts), "img.jpg", true, summaryPos⟩

/-- Negative history entry with ISO-string timestamp. -/
def entryIsoNeg (ts : String) : HistoryEntry := ⟨some (.iso ts), "img.jpg", false, summaryNeg⟩

/-- Positive history entry with a numeric epoch timestamp. -/
def entryNumPos (t : ℚ) : HistoryEntry := ⟨some (.num t), "img.jpg", true, summaryPos⟩

/-- Negative history entry with a numeric epoch timestamp. -/
def entryNumNeg (t : ℚ) : HistoryEntry := ⟨some (.num t), "img.jpg", false, summaryNeg⟩

/-- A fixed "current time" for the scenarios, `time.time()`. -/
def nowT : ℚ := 1700000000

/-- Scenario finding: `leukocoria_detected = true`, `confidence = 55`. -/
def finding55 : Finding :=
  { leukocoria_detected := true, confidence := 55, risk_level := "medium",
    urgency := "soon" }

/-- A stored identity record with a one-dimensional prototype descriptor. -/
def faceAt (x : ℚ) : FaceData := ⟨[x], "t0", "t0", 1, ["unknown"], "unknown"⟩

/-- A region dict carrying neither `type` nor `source`. -/
def regU : Region := ⟨none, none⟩

/-- Numeric value of a digit character. -/
def dval (c : Char) : Nat := c.toNat - 48

/-- Value of a decimal digit string (leading zeros are ignored). -/
def lval (l : List Char) : Nat := l.foldl (fun a c => 10 * a + dval c) 0

/-- Keep the last `max_history_per_face` elements (`l[-max_history:]`);
equals `l` when `l` is short enough because the drop count truncates to 0. -/
def lastTen (l : List HistoryEntry) : List HistoryEntry :=
  l.drop (l.length - max_history_per_face)

/-- The risk/urgency table of `_reevaluate_risk_level_with_history` as the
(amended) specification states it, written independently of the
implementation: a function of the detection flag, the confidence, the
history-adjustment flag, the adjustment factor, and the previous
risk/urgency values. -/
def specRiskUrgency (detected : Bool) (conf : ℚ) (adj : Bool) (factor : ℚ)
    (oldRisk oldUrg : String) : String × String :=
  if detected then
    if conf ≥ 85 ∨ (conf ≥ 75 ∧ adj) then ("high", "immediate")
    else if conf ≥ 65 ∨ (conf ≥ 55 ∧ adj) then ("medium", "urgent")
    else if conf ≥ 45 then ("medium", "soon")
    else ("low", "routine")
  else
    if adj ∧ conf > 30 then ("low", "soon")
    else if adj ∧ factor > 1 / 10 then (oldRisk, "soon")
    else (oldRisk, oldUrg)

/-- Scenario-A history as `add_analysis_result` writes it: three entries
(two positive) with ISO-string timestamps. -/
def histC2iso : List HistoryEntry :=
  [entryIsoPos "2025-09-20T10:00:00", entryIsoPos "2025-09-25T10:00:00",
   entryIsoNeg "2025-10-01T10:00:00"]

/-- State holding `histC2iso` for identity `child_0001`. -/
def sC2iso : FHState := ⟨[], [("child_0001", histC2iso)], 2⟩

/-- Scenario-A history with numeric in-window timestamps (what the 30-day
filter could actually compare). -/
def histC2num : List HistoryEntry :=
  [entryNumPos (nowT - 3000), entryNumPos (nowT - 2000),
   entryNumNeg (nowT - 1000)]

/-- State holding `histC2num` for identity `child_0001`. -/
def sC2num : FHState := ⟨[], [("child_0001", histC2num)], 2⟩

/-- Two-entry history with exactly one entry inside the 30-day window
(numeric timestamps): the other entry is 40 days old. -/
def histC1 : List HistoryEntry :=
  [entryNumNeg (nowT - 40 * 86400), entryNumPos (nowT - 1000)]

/-- State holding `histC1` for identity `child_0001`. -/
def sC1 : FHState := ⟨[], [("child_0001", histC1)], 2⟩

/-- A non-detected result with low confidence, history-adjusted with a
factor above `0.1`. -/
def cexC7 : Finding :=
  { leukocoria_detected := false, confidence := 20, risk_level := "low",
    urgency := "routine", confidence_adjusted := true,
    adjustment_factor := 1 / 5 }

/-- A store holding one identity whose prototype is the 1-dimensional
descriptor `[0]`. -/
def sC6 : FHState := ⟨[("child_0001", faceAt 0)], [("child_0001", [])], 2⟩

/-- A faces blob holding one identity record and a stored counter. -/
def blob8 : FacesBlob := ⟨some [("child_0001", faceAt 0)], some 2⟩

/-- A loaded history table for `child_0001`. -/
def hist8 : List (String × List HistoryEntry) := [("child_0001", histC2iso)]

/-- A store whose only prototype descriptor is 2-dimensional, so matching a
1-dimensional descriptor raises inside the scan loop. -/
def sMismatch : FHState :=
  ⟨[("child_0001", ⟨[0, 0], "t0", "t0", 1, ["unknown"], "unknown"⟩)],
   [("child_0001", [])], 2⟩

/-- An analysis-results dict with no per-region results. -/
def arEmpty : AnalysisResults := ⟨[], 1, "gemma"⟩

/-- Eleven identical `add_analysis_result` inputs. -/
def insEleven : List (AnalysisResults × String × String) :=
  List.replicate 11 (arEmpty, "img.jpg", "2025-10-01T00:00:00")

/-- The finding produced by adjusting `finding55` against `histC1` (one
in-window positive entry): rule 1 alone fires, `factor = 0.15`,
`confidence = 55 * 1.15 = 63.25`. -/
def adjustedC1 : Finding :=
  { leukocoria_detected := true, confidence := 253 / 4, risk_level := "medium",
    urgency := "soon", medical_reasoning := "", confidence_adjusted := true,
    original_confidence := some 55, adjustment_factor := 3 / 20,
    adjustment_reasoning := ["Consistent with positive history"],
    patient_history_summary := some ⟨1, 1, 50⟩ }

/-- The finding produced by adjusting `finding55` against `histC2num`
(Scenario A with comparable timestamps): rules 1 and 5 fire,
`factor = 0.25`, `confidence = 68.75`, risk reevaluated to medium/urgent. -/
def adjustedC2 : Finding :=
  { leukocoria_detected := true, confidence := 275 / 4, risk_level := "medium",
    urgency := "urgent",
    medical_reasoning := " Moderate confidence enhanced by patient history.",
    confidence_adjusted := true, original_confidence := some 55,
    adjustment_factor := 1 / 4,
    adjustment_reasoning := ["Consistent with positive history",
      "Consistent with recent positive trend"],
    patient_history_summary := some ⟨2 / 3, 3, 40⟩,
    recommendations := some ("Confidence adjusted based on patient history. " ++
      "Continue medical monitoring as advised.") }

/-! ### Decimal-representation lemmas (freshness of `child_{n:04d}` ids) -/

lemma lval_append_singleton (l : List Char) (c : Char) :
    lval (l ++ [c]) = 10 * lval l + dval c := by
  simp [lval, List.foldl_append]

lemma dval_digitChar {d : Nat} (h : d < 10) : dval (digitChar d) = d := by
  have key : ∀ x : Fin 10, dval (digitChar x.val) = x.val := by decide
  exact key ⟨d, h⟩

lemma lval_natDigitsAux : ∀ fuel n, n < fuel → lval (natDigitsAux fuel n) = n := by
  intro fuel
  induction fuel with
  | zero => intro n hn; omega
  | succ f ih =>
    intro n hn
    by_cases h10 : n < 10
    · simp only [natDigitsAux, if_pos h10]
      simpa [lval] using dval_digitChar h10
    · have hd : n / 10 < f := by
        have h1 : n / 10 < n := Nat.div_lt_self (by omega) (by omega)
        omega
      simp only [natDigitsAux, if_neg h10]
      rw [lval_append_singleton, ih _ hd, dval_digitChar (Nat.mod_lt n (by omega))]
      omega

lemma lval_natDigits (n : Nat) : lval (natDigits n) = n :=
  lval_natDigitsAux (n + 1) n (Nat.lt_succ_self n)

lemma foldl_zero_replicate (k : Nat) :
    List.foldl (fun a c => 10 * a + dval c) 0 (List.replicate k '0') = 0 := by
  induction k with
  | zero => rfl
  | succ m ih => simpa [List.replicate_succ, dval] using ih

lemma lval_pad4 (l : List Char) : lval (pad4 l) = lval l := by
  simp [pad4, lval, List.foldl_append, foldl_zero_replicate]

lemma childId_inj {a b : Nat} (h : childId a = childId b) : a = b := by
  have hdata : (childId a).data = (childId b).data := by rw [h]
  have ha : (childId a).data = "child_".data ++ pad4 (natDigits a) := rfl
  have hb : (childId b).data = "child_".data ++ pad4 (natDigits b) := rfl
  rw [ha, hb] at hdata
  have hl : pad4 (natDigits a) = pad4 (natDigits b) :=
    List.append_cancel_left hdata
  have := congrArg lval hl
  rwa [lval_pad4, lval_pad4, lval_natDigits, lval_natDigits] at this

lemma childId_ne_fallbackId (n t : Nat) : childId n ≠ fallbackId t := by
  intro h
  have hdata : (childId n).data = (fallbackId t).data := by rw [h]
  have ha : (childId n).data = 'c' :: ("hild_".data ++ pad4 (natDigits n)) := rfl
  have hb : (fallbackId t).data = 'f' :: ("allback_".data ++ natDigits t) := rfl
  rw [ha, hb] at hdata
  exact absurd (List.head_eq_of_cons_eq hdata) (by decide)

/-! ### Association-list lemmas -/

section AssocListLemmas

variable {α : Type*}

lemma alGet_insert_self (k : String) (v : α) (l : List (String × α)) :
    alGet k (alInsert k v l) = some v := by
  induction l with
  | nil => simp [alGet, alInsert]
  | cons p rest ih =>
    by_cases h : p.1 = k
    · simp [alInsert, alGet, h]
    · simp [alInsert, alGet, h, ih]

lemma alGet_insert_ne (k j : String) (v : α) (l : List (String × α))
    (h : j ≠ k) : alGet j (alInsert k v l) = alGet j l := by
  have hk : k ≠ j := fun hh => h hh.symm
  induction l with
  | nil => simp [alGet, alInsert, hk]
  | cons p rest ih =>
    by_cases hp : p.1 = k
    · have hp1 : p.1 ≠ j := by rw [hp]; exact hk
      simp [alInsert, alGet, hp, hk, hp1]
    · simp only [alInsert, if_neg hp, alGet, ih]

lemma mem_alInsert {p : String × α} {k : String} {v : α} {l : List (String × α)}
    (h : p ∈ alInsert k v l) : p = (k, v) ∨ p ∈ l := by
  induction l with
  | nil => simpa [alInsert] using h
  | cons q rest ih =>
    by_cases hq : q.1 = k
    · simp only [alInsert, if_pos hq, List.mem_cons] at h
      rcases h with h | h
      · exact Or.inl h
      · exact Or.inr (List.mem_cons_of_mem _ h)
    · simp only [alInsert, if_neg hq, List.mem_cons] at h
      rcases h with h | h
      · exact Or.inr (by simp [h])
      · rcases ih h with h' | h'
        · exact Or.inl h'
        · exact Or.inr (List.mem_cons_of_mem _ h')

lemma alGet_eq_some_mem {k : String} {v : α} {l : List (String × α)}
    (h : alGet k l = some v) : (k, v) ∈ l := by
  induction l with
  | nil => simp [alGet] at h
  | cons p rest ih =>
    by_cases hp : p.1 = k
    · simp only [alGet, if_pos hp, Option.some.injEq] at h
      have hpv : p = (k, v) := by
        obtain ⟨p1, p2⟩ := p
        simp only at hp h
        rw [hp, h]
      rw [← hpv]
      exact List.mem_cons_self p rest
    · simp only [alGet, if_neg hp] at h
      exact List.mem_cons_of_mem _ (ih h)

lemma alGet_alAdjust_self (k : String) (f : α → α) (l : List (String × α)) :
    alGet k (alAdjust k f l) = (alGet k l).map f := by
  induction l with
  | nil => simp [alGet, alAdjust]
  | cons p rest ih =>
    by_cases hp : p.1 = k
    · simp [alAdjust, alGet, hp]
    · simp only [alAdjust, List.map_cons, if_neg hp, alGet]
      exact ih

lemma alGet_alAdjust_ne (k j : String) (f : α → α) (l : List (String × α))
    (h : j ≠ k) : alGet j (alAdjust k f l) = alGet j l := by
  induction l with
  | nil => simp [alGet, alAdjust]
  | cons p rest ih =>
    by_cases hp : p.1 = k
    · have hp1 : p.1 ≠ j := by rw [hp]; exact fun hh => h hh.symm
      simp only [alAdjust, List.map_cons, if_pos hp, alGet, if_neg hp1]
      exact ih
    · simp only [alAdjust, List.map_cons, if_neg hp, alGet]
      by_cases hj : p.1 = j
      · simp [hj]
      · simp only [if_neg hj]
        exact ih

lemma mem_alAdjust {p : String × α} {k : String} {f : α → α}
    {l : List (String × α)} (h : p ∈ alAdjust k f l) :
    ∃ q ∈ l, p.1 = q.1 := by
  simp only [alAdjust, List.mem_map] at h
  obtain ⟨q, hq, hpq⟩ := h
  refine ⟨q, hq, ?_⟩
  by_cases hk : q.1 = k <;> simp [hk] at hpq <;> simp [← hpq, hk]

end AssocListLemmas

/-! ### Nearest-neighbour scan lemmas -/

lemma scanStep_ok {enc : List ℚ} {acc : Option (String × ℚ)}
    {p : String × FaceData} {acc' : Option (String × ℚ)}
    (h : scanStep enc acc p = .ok acc') :
    ∃ d, dist2 enc p.2.encoding = .ok d ∧
      (acc = none → acc' = some (p.1, d)) ∧
      (∀ bid bd, acc = some (bid, bd) →
        acc' = some (if d < bd then (p.1, d) else (bid, bd))) := by
  cases hd : dist2 enc p.2.encoding with
  | error e =>
    rw [scanStep, hd] at h
    exact Except.noConfusion h
  | ok d =>
    rw [scanStep, hd] at h
    refine ⟨d, rfl, ?_, ?_⟩
    · intro hn
      subst hn
      injection h with h''
      exact h''.symm
    · intro bid bd hs
      subst hs
      injection h with h''
      exact h''.symm

lemma foldlM_scan_spec (enc : List ℚ) :
    ∀ (faces : List (String × FaceData)) (acc res : Option (String × ℚ)),
      List.foldlM (scanStep enc) acc faces = .ok res →
      (∀ a, acc = some a → ∃ b, res = some b ∧ b.2 ≤ a.2) ∧
      (∀ p ∈ faces, ∃ d, dist2 enc p.2.encoding = .ok d ∧
        ∃ b, res = some b ∧ b.2 ≤ d) ∧
      (∀ b, res = some b → acc = some b ∨ ∃ fd, (b.1, fd) ∈ faces ∧
        dist2 enc fd.encoding = .ok b.2) ∧
      (res = none → faces = [] ∧ acc = none) := by
  intro faces
  induction faces with
  | nil =>
    intro acc res hres
    simp only [List.foldlM_nil] at hres
    have hres' : Except.ok acc = Except.ok res := hres
    injection hres' with h
    subst h
    refine ⟨fun a ha => ⟨a, ha, le_refl _⟩, ?_, fun b hb => Or.inl hb,
      fun hn => ⟨rfl, hn⟩⟩
    intro p hp
    exact absurd hp (List.not_mem_nil p)
  | cons p fs ih =>
    intro acc res hres
    rw [List.foldlM_cons] at hres
    cases hstep : scanStep enc acc p with
    | error e =>
      rw [hstep] at hres
      exact Except.noConfusion hres
    | ok acc' =>
      rw [hstep] at hres
      have hres2 : List.foldlM (scanStep enc) acc' fs = .ok res := hres
      obtain ⟨d, hd, haccn, haccs⟩ := scanStep_ok hstep
      obtain ⟨ih1, ih2, ih3, ih4⟩ := ih acc' res hres2
      have hacc'_some : ∃ a', acc' = some a' ∧ a'.2 ≤ d ∧
          (a' = (p.1, d) ∨ acc = some a') ∧
          (∀ a, acc = some a → a'.2 ≤ a.2) := by
        cases acc with
        | none =>
          refine ⟨(p.1, d), haccn rfl, le_refl d, Or.inl rfl, ?_⟩
          intro a ha
          exact Option.noConfusion ha
        | some a0 =>
          obtain ⟨bid, bd⟩ := a0
          have h' := haccs bid bd rfl
          by_cases hlt : d < bd
          · rw [if_pos hlt] at h'
            refine ⟨(p.1, d), h', le_refl d, Or.inl rfl, ?_⟩
            intro a ha
            injection ha with ha
            rw [← ha]
            exact le_of_lt hlt
          · rw [if_neg hlt] at h'
            refine ⟨(bid, bd), h', le_of_not_lt hlt, Or.inr rfl, ?_⟩
            intro a ha
            injection ha with ha
            rw [← ha]
      obtain ⟨a', ha', ha'd, ha'src, hstepmono⟩ := hacc'_some
      refine ⟨?_, ?_, ?_, ?_⟩
      · intro a ha
        obtain ⟨b, hb, hble⟩ := ih1 a' ha'
        exact ⟨b, hb, le_trans hble (hstepmono a ha)⟩
      · intro q hq
        rcases List.mem_cons.mp hq with hq | hq
        · subst hq
          obtain ⟨b, hb, hble⟩ := ih1 a' ha'
          exact ⟨d, hd, b, hb, le_trans hble ha'd⟩
        · exact ih2 q hq
      · intro b hb
        rcases ih3 b hb with hb' | ⟨fd, hfd, hfdd⟩
        · rcases ha'src with hsrc | hsrc
          · have hba' : b = a' := by
              rw [ha'] at hb'
              injection hb' with hh
              exact hh.symm
            have hb1 : b = (p.1, d) := hba'.trans hsrc
            right
            refine ⟨p.2, ?_, ?_⟩
            · rw [hb1]
              exact List.mem_cons_self p fs
            · rw [hb1]
              exact hd
          · left
            rw [hsrc]
            rw [ha'] at hb'
            exact hb'
        · exact Or.inr ⟨fd, List.mem_cons_of_mem _ hfd, hfdd⟩
      · intro hn
        obtain ⟨-, hacc'n⟩ := ih4 hn
        rw [ha'] at hacc'n
        exact Option.noConfusion hacc'n

lemma scanBest_ok_none {enc : List ℚ} {faces : List (String × FaceData)}
    (h : scanBest enc faces = .ok none) : faces = [] :=
  ((foldlM_scan_spec enc faces none none h).2.2.2 rfl).1

lemma scanBest_ok_some {enc : List ℚ} {faces : List (String × FaceData)}
    {b : String × ℚ} (h : scanBest enc faces = .ok (some b)) :
    (∃ fd, (b.1, fd) ∈ faces ∧ dist2 enc fd.encoding = .ok b.2) ∧
    (∀ p ∈ faces, ∃ d, dist2 enc p.2.encoding = .ok d ∧ b.2 ≤ d) := by
  obtain ⟨-, h2, h3, -⟩ := foldlM_scan_spec enc faces none (some b) h
  refine ⟨?_, ?_⟩
  · rcases h3 b rfl with h' | h'
    · exact Option.noConfusion h'
    · exact h'
  · intro p hp
    obtain ⟨d, hd, b', hb', hble⟩ := h2 p hp
    have : b' = b := by
      injection hb' with hh
      exact hh.symm
    exact ⟨d, hd, this ▸ hble⟩

/-! ### Bounded-history lemmas -/

lemma appendEntry_eq_lastTen (h : List HistoryEntry) (e : HistoryEntry) :
    appendEntry h e = lastTen (h ++ [e]) := by
  simp only [appendEntry, lastTen]
  by_cases hl : (h ++ [e]).length > max_history_per_face
  · rw [if_pos hl]
  · rw [if_neg hl]
    have h0 : (h ++ [e]).length - max_history_per_face = 0 := by omega
    rw [h0, List.drop_zero]

lemma lastTen_length (l : List HistoryEntry) :
    (lastTen l).length = min l.length max_history_per_face := by
  simp only [lastTen, List.length_drop]
  omega

lemma lastTen_append_lastTen (a b : List HistoryEntry) :
    lastTen (lastTen a ++ b) = lastTen (a ++ b) := by
  simp only [lastTen, List.length_append, List.length_drop,
    List.drop_append_eq_append_drop, List.drop_drop]
  congr 1
  · congr 1
    omega
  · congr 1
    omega

lemma foldl_appendEntry_of_le (es : List HistoryEntry) :
    ∀ h : List HistoryEntry, h.length ≤ max_history_per_face →
      es.foldl appendEntry h = lastTen (h ++ es) := by
  induction es with
  | nil =>
    intro h hl
    have h0 : h.length - max_history_per_face = 0 := by omega
    simp only [List.foldl_nil, List.append_nil, lastTen, h0, List.drop_zero]
  | cons e es ih =>
    intro h hl
    rw [List.foldl_cons]
    have hlen : (appendEntry h e).length ≤ max_history_per_face := by
      rw [appendEntry_eq_lastTen, lastTen_length]
      omega
    rw [ih _ hlen, appendEntry_eq_lastTen, lastTen_append_lastTen]
    congr 1
    simp

lemma lastTen_append_of_ge (h es : List HistoryEntry)
    (hes : max_history_per_face ≤ es.length) :
    lastTen (h ++ es) = es.drop (es.length - max_history_per_face) := by
  simp only [lastTen, List.length_append, List.drop_append_eq_append_drop]
  have h1 : h.length ≤ h.length + es.length - max_history_per_face := by omega
  rw [List.drop_eq_nil_of_le h1, List.nil_append]
  congr 1
  omega

lemma foldl_appendEntry_drop (es : List HistoryEntry)
    (hes : max_history_per_face ≤ es.length) (h : List HistoryEntry) :
    es.foldl appendEntry h = es.drop (es.length - max_history_per_face) := by
  cases es with
  | nil =>
    have hm : max_history_per_face = 10 := rfl
    simp only [List.length_nil] at hes
    omega
  | cons e es' =>
    rw [List.foldl_cons]
    have hlen : (appendEntry h e).length ≤ max_history_per_face := by
      rw [appendEntry_eq_lastTen, lastTen_length]
      omega
    rw [foldl_appendEntry_of_le es' _ hlen, appendEntry_eq_lastTen,
      lastTen_append_lastTen]
    have hassoc : (h ++ [e]) ++ es' = h ++ (e :: es') := by simp
    rw [hassoc, lastTen_append_of_ge _ _ hes]

lemma alGet_add_analysis_self (s : FHState) (fid : String)
    (ar : AnalysisResults) (p n : String) :
    alGet fid (add_analysis_result s fid ar p n).analysis_history =
      some (appendEntry ((alGet fid s.analysis_history).getD [])
        (mkHistoryEntry n p ar)) := by
  simp [add_analysis_result, alGet_insert_self]

lemma alGet_fold_record (fid : String) :
    ∀ (ins : List (AnalysisResults × String × String)) (s : FHState),
      ins ≠ [] →
      alGet fid (ins.foldl
        (fun st i => add_analysis_result st fid i.1 i.2.1 i.2.2) s).analysis_history =
      some ((ins.map fun i => mkHistoryEntry i.2.2 i.2.1 i.1).foldl appendEntry
        ((alGet fid s.analysis_history).getD [])) := by
  intro ins
  induction ins with
  | nil => intro s hne; exact absurd rfl hne
  | cons i ins' ih =>
    intro s _
    rw [List.foldl_cons, List.map_cons, List.foldl_cons]
    by_cases hne : ins' = []
    · subst hne
      simp only [List.foldl_nil]
      exact alGet_add_analysis_self s fid i.1 i.2.1 i.2.2
    · rw [ih _ hne]
      congr 1
      rw [alGet_add_analysis_self]
      rfl

/-! ### Risk-reevaluation and adjustment lemmas -/

lemma reevaluate_confidence_eq (r : Finding) :
    (reevaluate_risk_level_with_history r).confidence = r.confidence := by
  simp only [reevaluate_risk_level_with_history]
  split_ifs <;> rfl

lemma applyAdjustment_confidence_eq (recentLen : Nat) (pr avg factor : ℚ)
    (rs : List String) (r : Finding) (hf : factor ≠ 0) :
    (applyAdjustment recentLen pr avg factor rs r).confidence =
      max 0 (min 100 (r.confidence * (1 + factor))) := by
  simp only [applyAdjustment, if_neg hf]
  split_ifs <;> simp [reevaluate_confidence_eq]

lemma applyAdjustment_bounds (recentLen : Nat) (pr avg factor : ℚ)
    (rs : List String) (r : Finding) (h0 : 0 ≤ r.confidence)
    (h100 : r.confidence ≤ 100) :
    0 ≤ (applyAdjustment recentLen pr avg factor rs r).confidence ∧
      (applyAdjustment recentLen pr avg factor rs r).confidence ≤ 100 := by
  by_cases hf : factor = 0
  · simp only [applyAdjustment, if_pos hf]
    exact ⟨h0, h100⟩
  · rw [applyAdjustment_confidence_eq _ _ _ _ _ _ hf]
    exact ⟨le_max_left _ _, max_le (by norm_num) (min_le_left _ _)⟩

lemma adjust_early (s : FHState) (t : ℚ) (fid : String) (results : List Finding)
    (h : alGet fid s.analysis_history = none ∨
      ∃ history, alGet fid s.analysis_history = some history ∧
        (history.length < 2 ∨
         recentFilter history (t - 30 * 24 * 3600) = .error () ∨
         recentFilter history (t - 30 * 24 * 3600) = .ok [])) :
    adjust_confidence_with_history s t fid results = results := by
  unfold adjust_confidence_with_history
  rcases h with h | ⟨history, hh, hcase⟩
  · rw [h]
  · rw [hh]
    dsimp only
    rcases hcase with hlen | herr | hempty
    · rw [if_pos hlen]
    · by_cases hlen : history.length < 2
      · rw [if_pos hlen]
      · rw [if_neg hlen, herr]
    · by_cases hlen : history.length < 2
      · rw [if_pos hlen]
      · rw [if_neg hlen, hempty]
        simp

lemma adjust_changed (s : FHState) (t : ℚ) (fid : String)
    (results : List Finding)
    (h : adjust_confidence_with_history s t fid results ≠ results) :
    ∃ history recent, alGet fid s.analysis_history = some history ∧
      2 ≤ history.length ∧
      recentFilter history (t - 30 * 24 * 3600) = .ok recent ∧ recent ≠ [] := by
  cases hga : alGet fid s.analysis_history with
  | none => exact absurd (adjust_early s t fid results (Or.inl hga)) h
  | some history =>
    by_cases hlen : history.length < 2
    · exact absurd
        (adjust_early s t fid results (Or.inr ⟨history, hga, Or.inl hlen⟩)) h
    · cases hrf : recentFilter history (t - 30 * 24 * 3600) with
      | error e =>
        exact absurd (adjust_early s t fid results
          (Or.inr ⟨history, hga, Or.inr (Or.inl hrf)⟩)) h
      | ok recent =>
        cases recent with
        | nil =>
          exact absurd (adjust_early s t fid results
            (Or.inr ⟨history, hga, Or.inr (Or.inr hrf)⟩)) h
        | cons e es =>
          exact ⟨history, e :: es, rfl, by omega, hrf, by simp⟩

lemma adjust_mem_bounds (s : FHState) (t : ℚ) (fid : String)
    (results : List Finding)
    (hin : ∀ r ∈ results, 0 ≤ r.confidence ∧ r.confidence ≤ 100) :
    ∀ r' ∈ adjust_confidence_with_history s t fid results,
      0 ≤ r'.confidence ∧ r'.confidence ≤ 100 := by
  intro r' hr'
  rw [adjust_confidence_with_history] at hr'
  cases hga : alGet fid s.analysis_history with
  | none =>
    rw [hga] at hr'
    dsimp only at hr'
    exact hin r' hr'
  | some history =>
    rw [hga] at hr'
    dsimp only at hr'
    by_cases hlen : history.length < 2
    · rw [if_pos hlen] at hr'
      exact hin r' hr'
    · rw [if_neg hlen] at hr'
      cases hrf : recentFilter history (t - 30 * 24 * 3600) with
      | error e =>
        rw [hrf] at hr'
        dsimp only at hr'
        exact hin r' hr'
      | ok recent =>
        rw [hrf] at hr'
        dsimp only at hr'
        by_cases hre : recent.isEmpty
        · rw [if_pos hre] at hr'
          exact hin r' hr'
        · rw [if_neg hre] at hr'
          by_cases hpe :
              (recent.map fun e =>
                decide (e.analysis_summary.positive_detections > 0)).isEmpty
          · rw [if_pos hpe] at hr'
            exact hin r' hr'
          · rw [if_neg hpe] at hr'
            obtain ⟨r, hr, rfl⟩ := List.mem_map.mp hr'
            exact applyAdjustment_bounds _ _ _ _ _ r (hin r hr).1 (hin r hr).2

/-! ### Resolver equation lemmas and store invariants -/

lemma find_or_create_eq_error {s : FHState} {enc : List ℚ} {region : Region}
    {niso : String} {nep : Nat}
    (hscan : scanBest enc s.known_faces = .error ()) :
    find_or_create_face s enc region niso nep = ((fallbackId nep, true), s) := by
  unfold find_or_create_face
  rw [hscan]

lemma find_or_create_eq_none {s : FHState} {enc : List ℚ} {region : Region}
    {niso : String} {nep : Nat}
    (hscan : scanBest enc s.known_faces = .ok none) :
    find_or_create_face s enc region niso nep = createFace s enc region niso := by
  unfold find_or_create_face
  rw [hscan]

lemma find_or_create_eq_match {s : FHState} {enc : List ℚ} {region : Region}
    {niso : String} {nep : Nat} {bid : String} {bd : ℚ}
    (hscan : scanBest enc s.known_faces = .ok (some (bid, bd)))
    (hth : bd < matchThresholdSq) :
    find_or_create_face s enc region niso nep =
      ((bid, false),
       { s with known_faces := alAdjust bid (touchFace niso) s.known_faces }) := by
  unfold find_or_create_face
  rw [hscan]
  simp only [if_pos hth]

lemma find_or_create_eq_far {s : FHState} {enc : List ℚ} {region : Region}
    {niso : String} {nep : Nat} {bid : String} {bd : ℚ}
    (hscan : scanBest enc s.known_faces = .ok (some (bid, bd)))
    (hth : ¬ bd < matchThresholdSq) :
    find_or_create_face s enc region niso nep = createFace s enc region niso := by
  unfold find_or_create_face
  rw [hscan]
  simp only [if_neg hth]

lemma WF_fresh {s : FHState} (hwf : WF s) :
    alGet (childId s.next_face_id) s.known_faces = none := by
  cases hg : alGet (childId s.next_face_id) s.known_faces with
  | none => rfl
  | some fd =>
    obtain ⟨k, hk, hklt⟩ := hwf _ (alGet_eq_some_mem hg)
    have : s.next_face_id = k := childId_inj hk
    omega

lemma WF_createFace {s : FHState} (hwf : WF s) (enc : List ℚ) (region : Region)
    (niso : String) : WF (createFace s enc region niso).2 := by
  intro p hp
  simp only [createFace] at hp
  rcases mem_alInsert hp with hp | hp
  · refine ⟨s.next_face_id, by rw [hp], ?_⟩
    show s.next_face_id < s.next_face_id + 1
    omega
  · obtain ⟨k, hk, hkl⟩ := hwf p hp
    refine ⟨k, hk, ?_⟩
    show k < s.next_face_id + 1
    omega

lemma WF_find_or_create {s : FHState} (hwf : WF s) (enc : List ℚ)
    (region : Region) (niso : String) (nep : Nat) :
    WF (find_or_create_face s enc region niso nep).2 := by
  cases hscan : scanBest enc s.known_faces with
  | error e =>
    cases e
    rw [find_or_create_eq_error hscan]
    exact hwf
  | ok best =>
    cases best with
    | none =>
      rw [find_or_create_eq_none hscan]
      exact WF_createFace hwf enc region niso
    | some b =>
      obtain ⟨bid, bd⟩ := b
      by_cases hth : bd < matchThresholdSq
      · rw [find_or_create_eq_match hscan hth]
        intro p hp
        obtain ⟨q, hq, hpq⟩ := mem_alAdjust hp
        obtain ⟨k, hk, hkl⟩ := hwf q hq
        exact ⟨k, hpq.trans hk, hkl⟩
      · rw [find_or_create_eq_far hscan hth]
        exact WF_createFace hwf enc region niso

lemma WF_step {s : FHState} (hwf : WF s) (op : Op) : WF (step s op) := by
  cases op with
  | resolve enc region niso nep => exact WF_find_or_create hwf enc region niso nep
  | record fid ar p n => exact fun q hq => hwf q hq

lemma createFace_alGet_old {s : FHState} (hwf : WF s) (enc : List ℚ)
    (region : Region) (niso : String) {i : String} {fd : FaceData}
    (h : alGet i s.known_faces = some fd) :
    alGet i (createFace s enc region niso).2.known_faces = some fd := by
  simp only [createFace]
  rw [alGet_insert_ne]
  · exact h
  · intro hi
    rw [hi, WF_fresh hwf] at h
    exact Option.noConfusion h

lemma step_encoding_preserved {s : FHState} (hwf : WF s) (op : Op)
    {i : String} {fd : FaceData} (h : alGet i s.known_faces = some fd) :
    ∃ fd', alGet i (step s op).known_faces = some fd' ∧
      fd'.encoding = fd.encoding := by
  cases op with
  | record fid ar p n => exact ⟨fd, h, rfl⟩
  | resolve enc region niso nep =>
    show ∃ fd', alGet i (find_or_create_face s enc region niso nep).2.known_faces =
      some fd' ∧ fd'.encoding = fd.encoding
    cases hscan : scanBest enc s.known_faces with
    | error e =>
      cases e
      rw [find_or_create_eq_error hscan]
      exact ⟨fd, h, rfl⟩
    | ok best =>
      cases best with
      | none =>
        rw [find_or_create_eq_none hscan]
        exact ⟨fd, createFace_alGet_old hwf enc region niso h, rfl⟩
      | some b =>
        obtain ⟨bid, bd⟩ := b
        by_cases hth : bd < matchThresholdSq
        · rw [find_or_create_eq_match hscan hth]
          by_cases hib : i = bid
          · subst hib
            have hg : alGet i (alAdjust i (touchFace niso) s.known_faces) =
                some (touchFace niso fd) := by
              rw [alGet_alAdjust_self, h]
              rfl
            exact ⟨touchFace niso fd, hg, rfl⟩
          · refine ⟨fd, ?_, rfl⟩
            show alGet i (alAdjust bid (touchFace niso) s.known_faces) = some fd
            rw [alGet_alAdjust_ne _ _ _ _ hib]
            exact h
        · rw [find_or_create_eq_far hscan hth]
          exact ⟨fd, createFace_alGet_old hwf enc region niso h, rfl⟩

lemma fold_encoding_preserved (ops : List Op) :
    ∀ (s : FHState), WF s → ∀ {i : String} {fd : FaceData},
      alGet i s.known_faces = some fd →
      ∃ fd', alGet i (ops.foldl step s).known_faces = some fd' ∧
        fd'.encoding = fd.encoding := by
  induction ops with
  | nil => exact fun s _ _ _ h => ⟨_, h, rfl⟩
  | cons op ops ih =>
    intro s hwf i fd h
    obtain ⟨fd1, h1, he1⟩ := step_encoding_preserved hwf op h
    obtain ⟨fd2, h2, he2⟩ := ih (step s op) (WF_step hwf op) h1
    exact ⟨fd2, by rw [List.foldl_cons]; exact h2, he2.trans he1⟩

lemma zip_sub_sq_comm : ∀ (a b : List ℚ),
    ((a.zip b).map fun p => (p.1 - p.2) ^ 2).sum =
    ((b.zip a).map fun p => (p.1 - p.2) ^ 2).sum := by
  intro a
  induction a with
  | nil => intro b; cases b <;> simp
  | cons x xs ih =>
    intro b
    cases b with
    | nil => simp
    | cons y ys =>
      simp only [List.zip_cons_cons, List.map_cons, List.sum_cons, ih ys]
      ring

lemma dist2_comm (a b : List ℚ) : dist2 a b = dist2 b a := by
  unfold dist2
  by_cases h : a.length = b.length
  · rw [if_pos h, if_pos h.symm, zip_sub_sq_comm]
  · rw [if_neg h, if_neg (fun hh => h hh.symm)]

lemma recentFilter_iso_error (e : HistoryEntry) (es : List HistoryEntry)
    (c : ℚ) (str : String) (he : e.timestamp = some (PyTime.iso str)) :
    recentFilter (e :: es) c = .error () := by
  rw [recentFilter]
  simp [tsGt, he]

lemma find_or_create_false_inv {s : FHState} {enc : List ℚ} {region : Region}
    {niso : String} {nep : Nat} {bid : String} {s' : FHState}
    (h : find_or_create_face s enc region niso nep = ((bid, false), s')) :
    ∃ bd, scanBest enc s.known_faces = .ok (some (bid, bd)) ∧
      bd < matchThresholdSq ∧
      s' = { s with known_faces := alAdjust bid (touchFace niso) s.known_faces } := by
  cases hscan : scanBest enc s.known_faces with
  | error e =>
    cases e
    rw [find_or_create_eq_error hscan] at h
    exfalso
    injection h with h1 h2
    injection h1 with ha hb
    exact Bool.noConfusion hb
  | ok best =>
    cases best with
    | none =>
      rw [find_or_create_eq_none hscan] at h
      exfalso
      simp only [createFace] at h
      injection h with h1 h2
      injection h1 with ha hb
      exact Bool.noConfusion hb
    | some bb =>
      obtain ⟨bid', bd⟩ := bb
      by_cases hth : bd < matchThresholdSq
      · rw [find_or_create_eq_match hscan hth] at h
        injection h with h1 h2
        injection h1 with ha hb
        subst ha
        exact ⟨bd, rfl, hth, h2.symm⟩
      · rw [find_or_create_eq_far hscan hth] at h
        exfalso
        simp only [createFace] at h
        injection h with h1 h2
        injection h1 with ha hb
        exact Bool.noConfusion hb

lemma WF_sC6 : WF sC6 := by
  intro p hp
  simp only [sC6, List.mem_singleton] at hp
  subst hp
  exact ⟨1, by decide, by decide⟩

lemma WF_sMismatch : WF sMismatch := by
  intro p hp
  simp only [sMismatch, List.mem_singleton] at hp
  subst hp
  exact ⟨1, by decide, by decide⟩

/-! ### Claim theorems -/

/-- C1 (amended): `adjust_confidence_with_history` returns the input Finding
list unchanged whenever the identity is unknown, the identity's **total**
history has fewer than 2 entries, the 30-day window comparison raises, or no
entry lies in the window; conversely, whenever the output differs from the
input, the total history has at least 2 entries and the window holds at
least one entry.  The ≥2-entry gate is on the full history, not on the
window.  Moreover, on any history whose entries all carry the ISO-string
timestamps that `add_analysis_result` writes, the window comparison raises
and the function returns the input unchanged. -/
theorem C1_adjust_gating (s : FHState) (t : ℚ) (fid : String)
    (results : List Finding) :
    ((alGet fid s.analysis_history = none ∨
      ∃ history, alGet fid s.analysis_history = some history ∧
        (history.length < 2 ∨
         recentFilter history (t - 30 * 24 * 3600) = .error () ∨
         recentFilter history (t - 30 * 24 * 3600) = .ok [])) →
      adjust_confidence_with_history s t fid results = results) ∧
    (adjust_confidence_with_history s t fid results ≠ results →
      ∃ history recent, alGet fid s.analysis_history = some history ∧
        2 ≤ history.length ∧
        recentFilter history (t - 30 * 24 * 3600) = .ok recent ∧ recent ≠ []) ∧
    (∀ history, alGet fid s.analysis_history = some history →
      (∀ e ∈ history, ∃ str, e.timestamp = some (PyTime.iso str)) →
      adjust_confidence_with_history s t fid results = results) := by
  refine ⟨adjust_early s t fid results, adjust_changed s t fid results, ?_⟩
  intro history hh hiso
  by_cases hl : history.length < 2
  · exact adjust_early s t fid results (Or.inr ⟨history, hh, Or.inl hl⟩)
  · cases history with
    | nil => exact absurd (by norm_num) hl
    | cons e es =>
      obtain ⟨str, hstr⟩ := hiso e (List.mem_cons_self e es)
      exact adjust_early s t fid results (Or.inr ⟨e :: es, hh,
        Or.inr (Or.inl (recentFilter_iso_error e es _ str hstr))⟩)

/-- C1 counterexample: identity `child_0001` has a 2-entry history of which
exactly one entry falls inside the trailing 30-day window (the other is 40
days old), yet adjusting a detected Finding of confidence 55 applies a
non-zero `adjustment_factor = 0.15` and changes the output — the claim as
stated requires at least 2 **in-window** entries for any non-zero
adjustment. -/
theorem C1_counterexample :
    adjust_confidence_with_history sC1 nowT "child_0001" [finding55] =
      [adjustedC1] ∧
    adjustedC1.adjustment_factor = 3 / 20 ∧ ((3 : ℚ) / 20 ≠ 0) ∧
    adjustedC1 ≠ finding55 ∧
    recentFilter histC1 (nowT - 30 * 24 * 3600) =
      .ok [entryNumPos (nowT - 1000)] ∧
    alGet "child_0001" sC1.analysis_history = some histC1 ∧
    histC1.length = 2 := by
  refine ⟨?_, rfl, by norm_num,
    fun h => absurd (congrArg Finding.confidence_adjusted h) (by decide), ?_,
    rfl, rfl⟩
  · norm_num [adjust_confidence_with_history, sC1, histC1, alGet, recentFilter,
      tsGt, entryNumPos, entryNumNeg, nowT, summaryPos, summaryNeg,
      computeFactor, applyAdjustment, finding55, adjustedC1,
      List.filterMap_cons, List.filterMap_nil, List.count_cons, List.count_nil,
      List.sum_cons, List.sum_nil, abs_of_nonneg, abs_of_nonpos]
  · norm_num [recentFilter, histC1, tsGt, entryNumPos, entryNumNeg, nowT]

/-- C1 witness: on an empty store the adjustment returns the input
unchanged. -/
theorem C1_witness :
    adjust_confidence_with_history initState 0 "x" [] = [] :=
  (C1_adjust_gating initState 0 "x" []).1 (Or.inl rfl)

/-- C2 (code bug): Scenario A's history, as actually written by
`add_analysis_result` (three entries, two positive, ISO-string timestamps),
produces **no** adjustment: the 30-day window filter compares the string
timestamps with a float epoch cutoff, which raises and is swallowed by the
broad `except`, so the Finding comes back unchanged instead of gaining
`adjustment_factor ≥ 0.15`.  With comparable (numeric) timestamps the rules
would fire exactly as the claim says: `factor = 0.25 ≥ 0.15` and
`confidence = 68.75 ≥ 63`. -/
theorem C2_scenarioA_timestamp_bug :
    adjust_confidence_with_history sC2iso nowT "child_0001" [finding55] =
      [finding55] ∧
    (∀ (nIso p : String) (ar : AnalysisResults),
      (mkHistoryEntry nIso p ar).timestamp = some (PyTime.iso nIso)) ∧
    adjust_confidence_with_history sC2num nowT "child_0001" [finding55] =
      [adjustedC2] ∧
    adjustedC2.adjustment_factor = 1 / 4 ∧ ((15 : ℚ) / 100 ≤ 1 / 4) ∧
    adjustedC2.confidence = 275 / 4 ∧ ((63 : ℚ) ≤ 275 / 4) := by
  refine ⟨?_, fun _ _ _ => rfl, ?_, rfl, by norm_num, rfl, by norm_num⟩
  · norm_num [adjust_confidence_with_history, sC2iso, histC2iso, alGet,
      recentFilter, tsGt, entryIsoPos, entryIsoNeg]
  · norm_num [adjust_confidence_with_history, sC2num, histC2num, alGet,
      recentFilter, tsGt, entryNumPos, entryNumNeg, nowT, summaryPos,
      summaryNeg, computeFactor, applyAdjustment, finding55, adjustedC2,
      List.filterMap_cons, List.filterMap_nil, List.count_cons, List.count_nil,
      List.sum_cons, List.sum_nil, abs_of_nonneg, abs_of_nonpos,
      reevaluate_risk_level_with_history]

/-- C3: after any sequence of at least 11 `add_analysis_result` calls for one
identity, the stored history has length exactly `max_history_per_face`
(10) and consists of the entries built from the 10 most recent inputs, in
append order (FIFO truncation); and after any single call the history length
never exceeds `max_history_per_face`. -/
theorem C3_bounded_history (s : FHState) (fid : String)
    (ins : List (AnalysisResults × String × String)) (hlen : 11 ≤ ins.length) :
    (∃ h, alGet fid ((ins.foldl (fun st i =>
        add_analysis_result st fid i.1 i.2.1 i.2.2) s)).analysis_history =
          some h ∧
      h.length = max_history_per_face ∧
      h = (ins.map fun i => mkHistoryEntry i.2.2 i.2.1 i.1).drop
        (ins.length - max_history_per_face)) ∧
    (∀ (st : FHState) (i : AnalysisResults × String × String)
        (h' : List HistoryEntry),
      alGet fid (add_analysis_result st fid i.1 i.2.1 i.2.2).analysis_history =
        some h' → h'.length ≤ max_history_per_face) := by
  have hm : max_history_per_face = 10 := rfl
  constructor
  · have hne : ins ≠ [] := by
      intro h
      rw [h] at hlen
      simp at hlen
    rw [alGet_fold_record fid ins s hne]
    have hes : max_history_per_face ≤
        (ins.map fun i => mkHistoryEntry i.2.2 i.2.1 i.1).length := by
      rw [List.length_map]
      omega
    rw [foldl_appendEntry_drop _ hes]
    refine ⟨_, rfl, ?_, ?_⟩
    · rw [List.length_drop, List.length_map]
      omega
    · rw [List.length_map]
  · intro st i h' hh'
    rw [alGet_add_analysis_self] at hh'
    injection hh' with hh'
    rw [← hh', appendEntry_eq_lastTen, lastTen_length]
    omega

/-- C3 witness: eleven appends on a fresh identity leave exactly the last 10
entries. -/
theorem C3_witness :
    11 ≤ insEleven.length ∧
    ∃ h, alGet "p1" ((insEleven.foldl (fun st i =>
        add_analysis_result st "p1" i.1 i.2.1 i.2.2) initState)).analysis_history =
          some h ∧
      h.length = max_history_per_face ∧
      h = (insEleven.map fun i => mkHistoryEntry i.2.2 i.2.1 i.1).drop
        (insEleven.length - max_history_per_face) :=
  ⟨by norm_num [insEleven],
   (C3_bounded_history initState "p1" insEleven (by norm_num [insEleven])).1⟩

/-- C4: for input Findings whose confidence lies in `[0, 100]`, every result
of `adjust_confidence_with_history` has confidence in `[0, 100]`, for every
store state, identity and current time: adjusted results are clamped by
`max 0 (min 100 ...)` and unadjusted results keep their original
confidence. -/
theorem C4_confidence_clamped (s : FHState) (t : ℚ) (fid : String)
    (results : List Finding)
    (hin : ∀ r ∈ results, 0 ≤ r.confidence ∧ r.confidence ≤ 100) :
    ∀ r' ∈ adjust_confidence_with_history s t fid results,
      0 ≤ r'.confidence ∧ r'.confidence ≤ 100 :=
  adjust_mem_bounds s t fid results hin

/-- C4 witness: the Scenario-A adjustment keeps confidence within bounds. -/
theorem C4_witness :
    (∀ r ∈ [finding55], 0 ≤ r.confidence ∧ r.confidence ≤ 100) ∧
    ∀ r' ∈ adjust_confidence_with_history sC2num nowT "child_0001" [finding55],
      0 ≤ r'.confidence ∧ r'.confidence ≤ 100 :=
  ⟨by intro r hr; rw [List.mem_singleton] at hr; subst hr; norm_num [finding55],
   C4_confidence_clamped sC2num nowT "child_0001" [finding55]
     (by intro r hr; rw [List.mem_singleton] at hr; subst hr;
         norm_num [finding55])⟩

/-- C5: `_find_or_create_face` on a well-formed store.  If the
nearest-neighbour scan yields a best candidate whose (squared) distance is
below the (squared) threshold `(1 - similarity_threshold)^2`, it returns
that candidate — which attains the minimum distance over all stored
prototypes — with `is_new = false`, incrementing its `seen_count` and
updating `last_seen` while leaving history and the id counter alone.
Otherwise it allocates the fresh id `child_{next_face_id:04d}` (not present
in the store, so ids are never reused), increments the monotone counter,
stores the descriptor as the prototype with `seen_count = 1` and an empty
history, and returns `is_new = true`. -/
theorem C5_resolver (s : FHState) (enc : List ℚ) (region : Region)
    (niso : String) (nep : Nat) (hwf : WF s) :
    (∀ bid bd, scanBest enc s.known_faces = .ok (some (bid, bd)) →
      bd < matchThresholdSq →
      find_or_create_face s enc region niso nep =
        ((bid, false),
         { s with known_faces := alAdjust bid (touchFace niso) s.known_faces }) ∧
      (∃ fd, (bid, fd) ∈ s.known_faces ∧ dist2 enc fd.encoding = .ok bd) ∧
      (∀ p ∈ s.known_faces, ∃ d, dist2 enc p.2.encoding = .ok d ∧ bd ≤ d) ∧
      (∀ fd, alGet bid s.known_faces = some fd →
        alGet bid (find_or_create_face s enc region niso nep).2.known_faces =
          some (touchFace niso fd))) ∧
    ((scanBest enc s.known_faces = .ok none ∨
      ∃ bid bd, scanBest enc s.known_faces = .ok (some (bid, bd)) ∧
        ¬ bd < matchThresholdSq) →
      (find_or_create_face s enc region niso nep).1 =
        (childId s.next_face_id, true) ∧
      alGet (childId s.next_face_id) s.known_faces = none ∧
      (find_or_create_face s enc region niso nep).2.next_face_id =
        s.next_face_id + 1 ∧
      alGet (childId s.next_face_id)
        (find_or_create_face s enc region niso nep).2.known_faces =
        some ⟨enc, niso, niso, 1, [region.rtype.getD "unknown"],
          region.source.getD "unknown"⟩ ∧
      alGet (childId s.next_face_id)
        (find_or_create_face s enc region niso nep).2.analysis_history =
        some []) := by
  constructor
  · intro bid bd hscan hth
    obtain ⟨hprov, hmin⟩ := scanBest_ok_some hscan
    refine ⟨find_or_create_eq_match hscan hth, hprov, hmin, ?_⟩
    intro fd hfd
    rw [find_or_create_eq_match hscan hth]
    show alGet bid (alAdjust bid (touchFace niso) s.known_faces) = _
    rw [alGet_alAdjust_self, hfd]
    rfl
  · intro hnew
    have hcreate : find_or_create_face s enc region niso nep =
        createFace s enc region niso := by
      rcases hnew with hnone | ⟨bid, bd, hsome, hth⟩
      · exact find_or_create_eq_none hnone
      · exact find_or_create_eq_far hsome hth
    rw [hcreate]
    refine ⟨rfl, WF_fresh hwf, rfl, ?_, ?_⟩
    · show alGet (childId s.next_face_id)
        (alInsert (childId s.next_face_id) _ s.known_faces) = _
      rw [alGet_insert_self]
    · show alGet (childId s.next_face_id)
        (alInsert (childId s.next_face_id) [] s.analysis_history) = _
      rw [alGet_insert_self]

/-- C5 witness: a descriptor at squared distance `0.01 < 0.16` from the only
stored prototype matches it and is not treated as new. -/
theorem C5_witness :
    WF sC6 ∧
    (find_or_create_face sC6 [(1 : ℚ) / 10] regU "t9" 7).1 =
      ("child_0001", false) := by
  refine ⟨WF_sC6, ?_⟩
  have hscan : scanBest [(1 : ℚ) / 10] sC6.known_faces =
      .ok (some ("child_0001", 1 / 100)) := by
    norm_num [scanBest, sC6, faceAt, List.foldlM_cons, List.foldlM_nil,
      scanStep, dist2]
  have h := ((C5_resolver sC6 [(1 : ℚ) / 10] regU "t9" 7 WF_sC6).1
    "child_0001" (1 / 100) hscan
    (by norm_num [matchThresholdSq, similarity_threshold])).1
  rw [h]

/-- C6 (amended): resolving two descriptors within (squared) distance
`(0.4)^2` of each other against an **initially empty** store yields the same
identity id: the first resolution creates `child_0001`, whose prototype then
matches the second descriptor.  (With pre-existing identities the second
descriptor may be strictly closer to another stored prototype and match that
instead — see the counterexample.) -/
theorem C6_empty_store_same_id (a b : List ℚ) (d : ℚ) (regA regB : Region)
    (i1 i2 : String) (t1 t2 : Nat)
    (hd : dist2 a b = .ok d) (hlt : d < matchThresholdSq) :
    (find_or_create_face initState a regA i1 t1).1 = (childId 1, true) ∧
    (find_or_create_face (find_or_create_face initState a regA i1 t1).2
        b regB i2 t2).1 = (childId 1, false) := by
  have hb : dist2 b a = .ok d := (dist2_comm b a).trans hd
  have h0 : scanBest a initState.known_faces = .ok none := rfl
  rw [find_or_create_eq_none h0]
  have h1 : scanBest b (createFace initState a regA i1).2.known_faces =
      .ok (some (childId 1, d)) := by
    show scanBest b [(childId 1,
      ⟨a, i1, i1, 1, [regA.rtype.getD "unknown"],
        regA.source.getD "unknown"⟩)] = _
    simp [scanBest, List.foldlM_cons, List.foldlM_nil, scanStep, hb]
  rw [find_or_create_eq_match h1 hlt]
  exact ⟨rfl, rfl⟩

/-- C6 counterexample: the store already holds `child_0001` with prototype
`[0]`.  Descriptors `a = [0.65]` and `b = [0.3]` are within Euclidean
distance `0.35 < 0.4` of each other (squared distance `0.1225 < 0.16`), yet
resolving `a` creates the new identity `child_0002` (distance `0.65` to the
prototype) while resolving `b` afterwards matches the pre-existing
`child_0001` (distance `0.3 < 0.35`): the two resolutions return different
ids. -/
theorem C6_counterexample :
    dist2 [(13 : ℚ) / 20] [(3 : ℚ) / 10] = .ok (49 / 400) ∧
    ((49 : ℚ) / 400 < matchThresholdSq) ∧
    (find_or_create_face sC6 [(13 : ℚ) / 20] regU "t1" 100).1 =
      ("child_0002", true) ∧
    (find_or_create_face (find_or_create_face sC6 [(13 : ℚ) / 20] regU
        "t1" 100).2 [(3 : ℚ) / 10] regU "t2" 101).1 = ("child_0001", false) ∧
    ("child_0002" : String) ≠ "child_0001" := by
  refine ⟨by norm_num [dist2],
    by norm_num [matchThresholdSq, similarity_threshold], ?_, ?_, by decide⟩
  · have hscan : scanBest [(13 : ℚ) / 20] sC6.known_faces =
        .ok (some ("child_0001", 169 / 400)) := by
      norm_num [scanBest, sC6, faceAt, List.foldlM_cons, List.foldlM_nil,
        scanStep, dist2]
    rw [find_or_create_eq_far hscan
      (by norm_num [matchThresholdSq, similarity_threshold])]
    decide
  · have hscan : scanBest [(13 : ℚ) / 20] sC6.known_faces =
        .ok (some ("child_0001", 169 / 400)) := by
      norm_num [scanBest, sC6, faceAt, List.foldlM_cons, List.foldlM_nil,
        scanStep, dist2]
    rw [find_or_create_eq_far hscan
      (by norm_num [matchThresholdSq, similarity_threshold])]
    have hscan2 : scanBest [(3 : ℚ) / 10]
        (createFace sC6 [(13 : ℚ) / 20] regU "t1").2.known_faces =
        .ok (some ("child_0001", 9 / 100)) := by
      have hne : ¬ (("child_0001" : String) = childId 2) := by decide
      show scanBest [(3 : ℚ) / 10] (alInsert (childId 2)
        ⟨[(13 : ℚ) / 20], "t1", "t1", 1, ["unknown"], "unknown"⟩
        sC6.known_faces) = _
      norm_num [scanBest, sC6, faceAt, List.foldlM_cons, List.foldlM_nil,
        scanStep, dist2, alInsert, hne]
      have hlt2 : ¬ ((49 : ℚ) / 400 < 9 / 100) := by norm_num
      show Except.ok (some (if (49 : ℚ) / 400 < 9 / 100 then
          (childId 2, (49 : ℚ) / 400) else ("child_0001", (9 : ℚ) / 100))) =
        Except.ok (some ("child_0001", (9 : ℚ) / 100))
      rw [if_neg hlt2]
    rw [find_or_create_eq_match hscan2
      (by norm_num [matchThresholdSq, similarity_threshold])]

/-- C6 witness: two identical one-dimensional descriptors resolve to the
same id from an empty store. -/
theorem C6_witness :
    (find_or_create_face initState [(0 : ℚ)] regU "a" 1).1 = (childId 1, true) ∧
    (find_or_create_face (find_or_create_face initState [(0 : ℚ)] regU
        "a" 1).2 [(0 : ℚ)] regU "b" 2).1 = (childId 1, false) :=
  C6_empty_store_same_id [0] [0] 0 regU regU "a" "b" 1 2
    (by norm_num [dist2]) (by norm_num [matchThresholdSq, similarity_threshold])

/-- C7 (amended): `_reevaluate_risk_level_with_history` realises exactly the
claimed risk/urgency table on detected findings, but it is a function of
**four** inputs, not three: in the non-detected case with
`history_adjusted`, `confidence ≤ 30` and `adjustment_factor > 0.1` it sets
urgency to `soon` (leaving risk_level unchanged) instead of leaving both
unchanged; `specRiskUrgency` spells out the full (amended) table. -/
theorem C7_risk_table (r : Finding) :
    ((reevaluate_risk_level_with_history r).risk_level,
     (reevaluate_risk_level_with_history r).urgency) =
    specRiskUrgency r.leukocoria_detected r.confidence r.confidence_adjusted
      r.adjustment_factor r.risk_level r.urgency := by
  simp only [reevaluate_risk_level_with_history, specRiskUrgency]
  split_ifs <;> rfl

/-- C7 counterexample: a non-detected, history-adjusted result with
confidence 20 (`≤ 30`) and `adjustment_factor = 0.2 > 0.1` has its urgency
rewritten from `routine` to `soon` — the claim says every non-detected case
other than `history_adjusted ∧ confidence > 30` leaves risk and urgency
unchanged. -/
theorem C7_counterexample :
    (reevaluate_risk_level_with_history cexC7).urgency = "soon" ∧
    cexC7.urgency = "routine" ∧
    cexC7.leukocoria_detected = false ∧
    cexC7.confidence_adjusted = true ∧
    ¬ (cexC7.confidence > 30) ∧
    cexC7.adjustment_factor > 1 / 10 := by
  refine ⟨?_, rfl, rfl, rfl, by norm_num [cexC7], by norm_num [cexC7]⟩
  norm_num [reevaluate_risk_level_with_history, cexC7]

/-- C7 witness: the table evaluated on the counterexample input. -/
theorem C7_witness :
    ((reevaluate_risk_level_with_history cexC7).risk_level,
     (reevaluate_risk_level_with_history cexC7).urgency) =
    specRiskUrgency cexC7.leukocoria_detected cexC7.confidence
      cexC7.confidence_adjusted cexC7.adjustment_factor cexC7.risk_level
      cexC7.urgency :=
  C7_risk_table cexC7

/-- C8 (amended): `_load_data` is total (the broad `except` swallows every
failure).  Missing files leave both tables as initialised; both files
present and parsable loads both tables; but the two tables are **not**
independently loadable: a parse failure of either file resets both
`known_faces` and `analysis_history` (and `next_face_id`) to empty. -/
theorem C8_load_data (f : FileRead FacesBlob)
    (h : FileRead (List (String × List HistoryEntry))) (s : FHState) :
    (load_data FileRead.absent FileRead.absent s = s) ∧
    ((f = FileRead.corrupt ∨ h = FileRead.corrupt) →
      load_data f h s = ⟨[], [], 1⟩) ∧
    (∀ blob hl, load_data (FileRead.ok blob) (FileRead.ok hl) s =
      ⟨blob.known_faces.getD [], hl, blob.next_face_id.getD 1⟩) ∧
    (∀ hl, load_data FileRead.absent (FileRead.ok hl) s =
      { s with analysis_history := hl }) ∧
    (∀ blob, load_data (FileRead.ok blob) FileRead.absent s =
      { s with known_faces := blob.known_faces.getD []
               next_face_id := blob.next_face_id.getD 1 }) := by
  refine ⟨rfl, ?_, fun blob hl => rfl, fun hl => rfl, fun blob => rfl⟩
  intro hc
  cases f with
  | corrupt => rfl
  | absent =>
    rcases hc with hc | hc
    · exact absurd hc (by simp)
    · rw [hc]
      rfl
  | ok blob =>
    rcases hc with hc | hc
    · exact absurd hc (by simp)
    · rw [hc]
      rfl

/-- C8 counterexample: the faces file is present and parsable (holding
`child_0001`) while the history file is corrupt; `_load_data` ends with an
**empty** identity table — the already-loaded faces are wiped by the shared
`except` handler, contradicting independent loadability. -/
theorem C8_counterexample :
    (load_data (FileRead.ok blob8) FileRead.corrupt initState).known_faces
      = [] ∧
    blob8.known_faces.getD [] = [("child_0001", faceAt 0)] ∧
    [("child_0001", faceAt 0)] ≠ ([] : List (String × FaceData)) := by
  refine ⟨rfl, rfl, by simp⟩

/-- C8 witness: a corrupt faces file resets the whole store. -/
theorem C8_witness :
    load_data FileRead.corrupt FileRead.corrupt initState = ⟨[], [], 1⟩ :=
  (C8_load_data FileRead.corrupt FileRead.corrupt initState).2.1 (Or.inl rfl)

/-- C9: on a well-formed store, an identity's prototype descriptor survives
any sequence of resolver/record operations unchanged; and a successful match
(`is_new = false`) leaves the history table, the id counter and every other
identity's record untouched, replacing only the matched record's
`last_seen` and `seen_count` (its encoding and remaining fields are kept by
`touchFace`). -/
theorem C9_prototype_immutable (s : FHState) (hwf : WF s) :
    (∀ (ops : List Op) (i : String) (fd : FaceData),
      alGet i s.known_faces = some fd →
      ∃ fd', alGet i ((ops.foldl step s)).known_faces = some fd' ∧
        fd'.encoding = fd.encoding) ∧
    (∀ (enc : List ℚ) (region : Region) (niso : String) (nep : Nat)
        (bid : String) (s' : FHState),
      find_or_create_face s enc region niso nep = ((bid, false), s') →
      s'.analysis_history = s.analysis_history ∧
      s'.next_face_id = s.next_face_id ∧
      (∀ k, k ≠ bid → alGet k s'.known_faces = alGet k s.known_faces) ∧
      (∀ fd, alGet bid s.known_faces = some fd →
        alGet bid s'.known_faces = some (touchFace niso fd))) := by
  constructor
  · intro ops i fd h
    exact fold_encoding_preserved ops s hwf h
  · intro enc region niso nep bid s' h
    obtain ⟨bd, hscan, hth, rfl⟩ := find_or_create_false_inv h
    refine ⟨rfl, rfl, ?_, ?_⟩
    · intro k hk
      exact alGet_alAdjust_ne _ _ _ _ hk
    · intro fd hfd
      show alGet bid (alAdjust bid (touchFace niso) s.known_faces) = _
      rw [alGet_alAdjust_self, hfd]
      rfl

/-- C9 witness: after a matching resolve on `sC6`, the prototype of
`child_0001` still equals `[0]`. -/
theorem C9_witness :
    WF sC6 ∧
    ∃ fd', alGet "child_0001"
        (([Op.resolve [(1 : ℚ) / 10] regU "t3" 9].foldl step sC6)).known_faces =
      some fd' ∧ fd'.encoding = (faceAt 0).encoding :=
  ⟨WF_sC6, (C9_prototype_immutable sC6 WF_sC6).1
    [Op.resolve [(1 : ℚ) / 10] regU "t3" 9] "child_0001" (faceAt 0) rfl⟩

/-- C10: when the nearest-neighbour scan raises (here: a stored prototype of
different dimension), `_find_or_create_face` returns the id
`fallback_{int(time.time())}` with `is_new = true` and the state — identity
store, history store and counter — completely unchanged; the fallback id is
a fresh string with prefix `fallback_` that is not a key of the identity
store, and (when it is absent from the history table, as it always is since
nothing inserts it) `get_face_analysis_summary` on it returns the error
result rather than a summary. -/
theorem C10_fallback (s : FHState) (enc : List ℚ) (region : Region)
    (niso : String) (nep : Nat) (hwf : WF s)
    (herr : scanBest enc s.known_faces = .error ())
    (hnh : alGet (fallbackId nep) s.analysis_history = none) :
    find_or_create_face s enc region niso nep = ((fallbackId nep, true), s) ∧
    (∃ rest, (fallbackId nep).data = "fallback_".data ++ rest) ∧
    alGet (fallbackId nep) s.known_faces = none ∧
    get_face_analysis_summary s (fallbackId nep) =
      SummaryOut.err "Face not found" := by
  refine ⟨find_or_create_eq_error herr,
    ⟨(String.mk (natDigits nep)).data, rfl⟩, ?_, ?_⟩
  · cases hg : alGet (fallbackId nep) s.known_faces with
    | none => rfl
    | some fd =>
      obtain ⟨k, hk, -⟩ := hwf _ (alGet_eq_some_mem hg)
      exact absurd hk.symm (childId_ne_fallbackId k nep)
  · rw [get_face_analysis_summary, hnh]

/-- C10 witness: matching a 1-dimensional descriptor against a store whose
prototype is 2-dimensional raises, and the fallback path fires. -/
theorem C10_witness :
    WF sMismatch ∧
    scanBest [(0 : ℚ)] sMismatch.known_faces = .error () ∧
    find_or_create_face sMismatch [(0 : ℚ)] regU "t" 99 =
      ((fallbackId 99, true), sMismatch) ∧
    get_face_analysis_summary sMismatch (fallbackId 99) =
      SummaryOut.err "Face not found" := by
  have h := C10_fallback sMismatch [(0 : ℚ)] regU "t" 99 WF_sMismatch rfl
    (by decide)
  exact ⟨WF_sMismatch, rfl, h.1, h.2.2.2⟩
